import Mathlib

/-!
Shallow embedding of the `audio_parser` crate (WAV/RIFF container scanner,
format decoder and streaming sample reader) and verification of its
specification claims.

Modelling conventions:
- a byte is a `Nat` whose intended range is `[0, 256)`; little-endian
  multi-byte integers are recovered with `from_le_bytes`;
- Rust slice indexing `bytes[a..b]` is modelled by `slice`, which returns
  `none` exactly when Rust would panic (out-of-range bounds);
- fallible Rust functions returning `Result<T, Error>` are modelled with
  `PResult`, which has a third outcome `panicked` for Rust panics
  (out-of-range indexing, `unwrap` on `Err`/`None`, failed `assert!`);
- mutation of the `Wav` session is modelled by explicit state passing:
  methods return the outcome together with the updated session state.

The `Error` enum lives in `error.rs`, which only declares the variants; the
variants below are exactly those constructed or matched in the sources at
hand (`chunk.rs`, `wav/chunk.rs`, `fmt.rs`, `wav/fmt.rs`, `wav.rs`).
-/

namespace AudioParser

/-- Error type of the crate, with the variants the source constructs. -/
inductive Error where
  | CantParseSliceInto
  | NoRiffChunkFound
  | NoWaveTagFound
  | NoListTagFound
  | NoInfoTagFound
  | NoFmtChunkFound
  | NoDataChunkFound
  | UnsupportedFormat : Nat → Error
  | UnsupportedBitDepth : Nat → Error
  deriving DecidableEq, Repr

/-- Outcome of running a fallible Rust function: `ok`, a returned `Err`,
or a Rust panic (`unwrap` failure, out-of-bounds slice, failed assert). -/
inductive PResult (α : Type) where
  | ok : α → PResult α
  | err : Error → PResult α
  | panicked : PResult α
  deriving DecidableEq, Repr

/-- Rust slice indexing `l[a..b]`: `some` of the sub-list when the bounds
are in range, `none` (a panic at the call site) otherwise. -/
def slice (l : List Nat) (a b : Nat) : Option (List Nat) :=
  if a ≤ b ∧ b ≤ l.length then some ((l.drop a).take (b - a)) else none

/-- Little-endian value of a byte list (u16/u32 `from_le_bytes`). -/
def from_le_bytes (l : List Nat) : Nat :=
  l.foldr (fun b acc => b + 256 * acc) 0

/-- `i16::from_le_bytes([b0, b1])` as a mathematical integer. -/
def i16_from_le_bytes (b0 b1 : Nat) : Int :=
  let n := b0 + 256 * b1
  if n < 32768 then (n : Int) else (n : Int) - 65536

/-- `i32::from_le_bytes([b0, b1, b2, b3])` as a mathematical integer. -/
def i32_from_le_bytes (b0 b1 b2 b3 : Nat) : Int :=
  let n := b0 + 256 * b1 + 65536 * b2 + 16777216 * b3
  if n < 2147483648 then (n : Int) else (n : Int) - 4294967296

/-- `ChunkTag` from `src/wav/chunk.rs` (the `src/chunk.rs` revision lacks
the `list` and `info` variants but is otherwise identical). -/
inductive ChunkTag where
  | riff
  | fmt
  | data
  | wave
  | list
  | info
  | unknown : List Nat → ChunkTag
  deriving DecidableEq, Repr

/-- `ChunkTag::from_bytes`: note it has no arm producing `list`/`info`;
`"LIST"` and `"INFO"` fall to the `unknown` fallback. -/
def ChunkTag.from_bytes (bytes : List Nat) : ChunkTag :=
  if bytes = [82, 73, 70, 70] then .riff
  else if bytes = [102, 109, 116, 32] then .fmt
  else if bytes = [100, 97, 116, 97] then .data
  else if bytes = [87, 65, 86, 69] then .wave
  else .unknown bytes

/-- `ChunkTag::to_bytes`. -/
def ChunkTag.to_bytes : ChunkTag → List Nat
  | .riff => [82, 73, 70, 70]
  | .fmt => [102, 109, 116, 32]
  | .data => [100, 97, 116, 97]
  | .wave => [87, 65, 86, 69]
  | .list => [76, 73, 83, 84]
  | .info => [73, 78, 70, 79]
  | .unknown bytes => bytes

/-- A located RIFF chunk: tag plus byte offsets of its content range. -/
structure Chunk where
  id : ChunkTag
  start : Nat
  «end» : Nat
  deriving DecidableEq, Repr

/-- `Chunk::from_bytes`: reads the 4-byte tag at `[0,4)` and the
little-endian size at `[4,8)`; the source then sets `start = 8 + 12`
and `end = 20 + size`.  The `try_into` conversions cannot fail once the
slice indexing has succeeded, so `CantParseSliceInto` is unreachable and
short slices panic instead. -/
def Chunk.from_bytes (bytes : List Nat) : PResult Chunk :=
  match slice bytes 0 4 with
  | none => .panicked
  | some idBytes =>
    match slice bytes 4 8 with
    | none => .panicked
    | some sizeBytes =>
      let id := ChunkTag.from_bytes idBytes
      let size := from_le_bytes sizeBytes
      .ok { id := id, start := 8 + 12, «end» := 20 + size }

/-- Bounded chunk-list capacity (`MAX_CHUNKS` in `src/wav/chunk.rs`). -/
def MAX_CHUNKS : Nat := 5

/-- The scanner loop shared verbatim by `parse_riff`, `parse_list`
(`src/wav/chunk.rs`) and `parse_chunks` (`src/chunk.rs`): while the cursor
is inside the window, parse a header, advance by
`8 + chunk_length + (chunk_length & 1) * 8`, and `push(..).unwrap()` the
descriptor onto the bounded list (a panic once `MAX_CHUNKS` is reached). -/
def parse_chunk_loop (bytes : List Nat) (index : Nat) (chunks : List Chunk) :
    PResult (List Chunk) :=
  if h : index < bytes.length then
    match Chunk.from_bytes (bytes.drop index) with
    | .panicked => .panicked
    | .err e => .err e
    | .ok chunk_info =>
      let chunk_length := chunk_info.«end» - chunk_info.start
      let padding_byte := (chunk_length &&& 1) * 8
      if chunks.length = MAX_CHUNKS then .panicked
      else parse_chunk_loop bytes (index + (8 + chunk_length + padding_byte))
        (chunks ++ [chunk_info])
  else .ok chunks
termination_by bytes.length - index
decreasing_by omega

/-- `parse_riff` from `src/wav/chunk.rs`: require a RIFF root header and the
`WAVE` identifier at `[8,12)`, then run the scanner loop from offset 12. -/
def parse_riff (bytes : List Nat) : PResult (List Chunk) :=
  match Chunk.from_bytes bytes with
  | .panicked => .panicked
  | .err e => .err e
  | .ok riff =>
    if riff.id ≠ ChunkTag.riff then .err .NoRiffChunkFound
    else
      match slice bytes 8 12 with
      | none => .panicked
      | some tag =>
        if tag ≠ ChunkTag.wave.to_bytes then .err .NoWaveTagFound
        else parse_chunk_loop bytes 12 []

/-- `parse_list` from `src/wav/chunk.rs`: require a `List` tag on the first
header and the `INFO` identifier at `[8,12)`, then run the scanner loop. -/
def parse_list (bytes : List Nat) : PResult (List Chunk) :=
  match Chunk.from_bytes bytes with
  | .panicked => .panicked
  | .err e => .err e
  | .ok list =>
    if list.id ≠ ChunkTag.list then .err .NoListTagFound
    else
      match slice bytes 8 12 with
      | none => .panicked
      | some tag =>
        if tag ≠ ChunkTag.info.to_bytes then .err .NoInfoTagFound
        else parse_chunk_loop bytes 12 []

/-- Parsed `fmt ` chunk descriptor (`src/fmt.rs`, used by `src/wav.rs`). -/
structure Fmt where
  sample_rate : Nat
  num_channels : Nat
  bit_depth : Nat
  deriving DecidableEq, Repr

/-- `Fmt::from_chunk` from `src/fmt.rs`: format tag (u16 LE) at `[0,2)`,
which must be 1 (PCM) or the decode fails with `UnsupportedFormat` carrying
the tag; channels (u16 LE) at `[2,4)`; sample rate (u32 LE) at `[4,8)`;
bit depth (u16 LE) at `[14,16)`.  As in `Chunk::from_bytes`, the
`try_into` guards are unreachable once the slice indexing succeeds. -/
def Fmt.from_chunk (bytes : List Nat) : PResult Fmt :=
  match slice bytes 0 2 with
  | none => .panicked
  | some formatBytes =>
    let format := from_le_bytes formatBytes
    if format ≠ 1 then .err (.UnsupportedFormat format)
    else
      match slice bytes 2 4 with
      | none => .panicked
      | some channelBytes =>
        match slice bytes 4 8 with
        | none => .panicked
        | some rateBytes =>
          match slice bytes 14 16 with
          | none => .panicked
          | some depthBytes =>
            .ok { sample_rate := from_le_bytes rateBytes,
                  num_channels := from_le_bytes channelBytes,
                  bit_depth := from_le_bytes depthBytes }

/-- The storage collaborator's file handle: its byte contents and the
current read offset.  `read` pulls up to `n` bytes at the offset and
advances it; `length` is the file's total size. -/
structure FileHandle where
  contents : List Nat
  offset : Nat
  deriving DecidableEq, Repr

/-- `file.length()`. -/
def FileHandle.length (f : FileHandle) : Nat := f.contents.length

/-- `file.read(&mut buf)` with a buffer of size `n`: returns the bytes
actually read (possibly fewer than `n` near end of file) and the handle
with its offset advanced by that count. -/
def FileHandle.readBytes (f : FileHandle) (n : Nat) : List Nat × FileHandle :=
  let got := (f.contents.drop f.offset).take n
  (got, { f with offset := f.offset + got.length })

/-- `Data` from `src/wav.rs`: one decoded sample. -/
inductive Data where
  | BitDepth8 : Nat → Data
  | BitDepth16 : Int → Data
  | BitDepth24 : Int → Data
  deriving DecidableEq, Repr

/-- `DataBulk<NUM>` from `src/wav.rs`: a bulk of decoded samples. -/
inductive DataBulk where
  | BitDepth8 : List Nat → DataBulk
  | BitDepth16 : List Int → DataBulk
  | BitDepth24 : List Int → DataBulk
  deriving DecidableEq, Repr

/-- The `Wav` session from `src/wav.rs`: the owned file handle, the
cumulative `read` counter, the located data chunk, the parsed format and
the ancillary chunks. -/
structure Wav where
  file : FileHandle
  read : Nat
  data : Chunk
  fmt : Fmt
  chunks : List Chunk
  deriving DecidableEq, Repr

/-- `Wav::is_end`: compares the file's current offset with the file's
total length (not with the recorded data range). -/
def Wav.is_end (w : Wav) : Bool :=
  w.file.offset == w.file.length

/-- `Wav::next` from `src/wav.rs`: `assert!(!self.is_end())` (a panic when
violated), then `self.read += 1`, then decode one sample according to
`fmt.bit_depth`: 1 raw byte for 8-bit; 2 bytes little-endian signed for
16-bit; 3 bytes for 24-bit, sign-extended with a synthesized fourth byte
`0xFF`/`0x00` chosen by bit 7 of the third byte.  Each `file.read` is
asserted to have filled the buffer (a panic otherwise).  Returns the
outcome together with the mutated session. -/
def Wav.next (w : Wav) : PResult Data × Wav :=
  if w.is_end then (.panicked, w)
  else
    let w := { w with read := w.read + 1 }
    match w.fmt.bit_depth with
    | 8 =>
      match w.file.readBytes 1 with
      | ([b0], f) => (.ok (.BitDepth8 b0), { w with file := f })
      | (_, f) => (.panicked, { w with file := f })
    | 16 =>
      match w.file.readBytes 2 with
      | ([b0, b1], f) =>
        (.ok (.BitDepth16 (i16_from_le_bytes b0 b1)), { w with file := f })
      | (_, f) => (.panicked, { w with file := f })
    | 24 =>
      match w.file.readBytes 3 with
      | ([b0, b1, b2], f) =>
        let sign := b2 >>> 7
        let sign_byte := if sign = 1 then 255 else 0
        (.ok (.BitDepth24 (i32_from_le_bytes b0 b1 b2 sign_byte)),
          { w with file := f })
      | (_, f) => (.panicked, { w with file := f })
    | d => (.err (.UnsupportedBitDepth d), w)

/-- `Wav::next_n::<NUM>` from `src/wav.rs`: `assert!(!self.is_end())`,
then match on `fmt.bit_depth`.  The 8-bit arm adds `NUM` to `read`, reads
into a `NUM`-byte zero-initialized buffer (no assertion on the count read)
and returns it whole; the 16-bit and 24-bit arms add `NUM * 2` resp.
`NUM * 3` to `read` and then return `Err(UnsupportedBitDepth(..))` — their
decode bodies are commented out in the source. -/
def Wav.next_n (w : Wav) (NUM : Nat) : PResult DataBulk × Wav :=
  if w.is_end then (.panicked, w)
  else
    match w.fmt.bit_depth with
    | 8 =>
      let w := { w with read := w.read + NUM }
      let res := w.file.readBytes NUM
      let buf := res.1 ++ List.replicate (NUM - res.1.length) 0
      (.ok (.BitDepth8 buf), { w with file := res.2 })
    | 16 =>
      let w := { w with read := w.read + NUM * 2 }
      (.err (.UnsupportedBitDepth 16), w)
    | 24 =>
      let w := { w with read := w.read + NUM * 3 }
      (.err (.UnsupportedBitDepth 24), w)
    | d => (.err (.UnsupportedBitDepth d), w)

/-! ### Concrete inputs used by the theorems -/

/-- The 60-byte RIFF/WAVE window from the repository's own
`should_parse_chunks` test: a `fmt ` chunk (size 16) whose header sits at
cursor 12, followed by a `data` chunk (size 16) whose header sits at
cursor 36. -/
def testBytes60 : List Nat :=
  [82, 73, 70, 70, 52, 0, 0, 0, 87, 65, 86, 69,
   102, 109, 116, 32, 16, 0, 0, 0,
   1, 0, 2, 0, 34, 86, 0, 0, 136, 88, 1, 0, 4, 0, 16, 0,
   100, 97, 116, 97, 16, 0, 0, 0,
   0, 0, 0, 0, 36, 23, 30, 243, 60, 19, 60, 20, 22, 249, 24, 249]

/-- A 31-byte RIFF/WAVE window whose single scanned chunk (`"oddc"`,
header at cursor 12) has the odd declared size 3.  Its 3 content bytes end
at offset 23; a correctly word-aligned scan would place the next header at
offset 24, where a `"data"` header begins. -/
def oddBytes31 : List Nat :=
  [82, 73, 70, 70, 19, 0, 0, 0, 87, 65, 86, 69,
   111, 100, 100, 99, 3, 0, 0, 0,
   1, 2, 3, 0,
   100, 97, 116, 97, 8, 0, 0]

/-- A 60-byte RIFF/WAVE window containing six zero-size chunks — one more
than `MAX_CHUNKS = 5`. -/
def capBytes60 : List Nat :=
  [82, 73, 70, 70, 52, 0, 0, 0, 87, 65, 86, 69,
   99, 104, 107, 49, 0, 0, 0, 0,
   99, 104, 107, 50, 0, 0, 0, 0,
   99, 104, 107, 51, 0, 0, 0, 0,
   99, 104, 107, 52, 0, 0, 0, 0,
   99, 104, 107, 53, 0, 0, 0, 0,
   99, 104, 107, 54, 0, 0, 0, 0]

/-- A well-formed 12-byte LIST/INFO window: the `"LIST"` tag, the declared
size 4 and the `"INFO"` sub-type identifier. -/
def listBytes12 : List Nat :=
  [76, 73, 83, 84, 4, 0, 0, 0, 73, 78, 70, 79]

/-! ### Claim theorems for the chunk scanner -/

/-- **C1.** The claim says every descriptor's content range is
`[cursor+8, cursor+8+declared_size)`.  The code instead hardcodes
`start = 8 + 12 = 20` and `end = 20 + declared_size` for every chunk: on
the repository's own test window the `data` chunk, whose header the
scanner reads at cursor 36, is given `start = 20` rather than
`36 + 8 = 44`. -/
theorem parse_riff_start_is_constant :
    parse_riff testBytes60 =
      .ok [⟨ChunkTag.fmt, 20, 36⟩, ⟨ChunkTag.data, 20, 36⟩] ∧
    (20 : Nat) ≠ 36 + 8 := by
  refine ⟨?_, by decide⟩
  simp [parse_riff, parse_chunk_loop, Chunk.from_bytes, slice,
    ChunkTag.from_bytes, ChunkTag.to_bytes, from_le_bytes, MAX_CHUNKS,
    testBytes60]

/-- **C2.** The claim (and the code's own comment) say an odd declared
size adds one padding byte, so after the size-3 chunk whose header is at
cursor 12 the next header would be read at `12 + 8 + 3 + 1 = 24`, where a
`"data"` header lies.  The code computes `(chunk_length & 1) * 8`,
advancing the cursor by `8 + 3 + 8` to 31 — the end of the window — so the
scan returns only the one chunk and never sees the `"data"` header. -/
theorem parse_riff_pads_eight_bytes :
    parse_riff oddBytes31 =
      .ok [⟨ChunkTag.unknown [111, 100, 100, 99], 20, 23⟩] ∧
    (12 + 8 + 3 + ((3 &&& 1) * 8) : Nat) = 31 ∧
    (12 + 8 + 3 + 1 : Nat) = 24 := by
  refine ⟨?_, by decide, by decide⟩
  simp [parse_riff, parse_chunk_loop, Chunk.from_bytes, slice,
    ChunkTag.from_bytes, ChunkTag.to_bytes, from_le_bytes, MAX_CHUNKS,
    oddBytes31]

/-- **C3.** The claim says exceeding the bounded chunk-list capacity
surfaces an error value and never crashes.  On a window with six chunks
(capacity `MAX_CHUNKS = 5`) the scan instead panics: the source's
`chunks.push(chunk_info).unwrap()` unwraps the `Err` that `heapless`
returns on a full vector. -/
theorem parse_riff_capacity_panics :
    parse_riff capBytes60 = .panicked := by
  simp [parse_riff, parse_chunk_loop, Chunk.from_bytes, slice,
    ChunkTag.from_bytes, ChunkTag.to_bytes, from_le_bytes, MAX_CHUNKS,
    capBytes60]

/-- **C7.** The claim says a window whose first tag is `"LIST"` and whose
sub-type is `"INFO"` proceeds past both checks.  But
`ChunkTag::from_bytes` has no arm mapping `"LIST"` to the `list` variant
(its own inverse `to_bytes` does have one), so the parsed id is
`unknown "LIST"` and `parse_list` fails with `NoListTagFound` on every
input, including this well-formed LIST/INFO window. -/
theorem parse_list_always_fails :
    parse_list listBytes12 = .err .NoListTagFound ∧
    ChunkTag.from_bytes (ChunkTag.list.to_bytes) =
      .unknown [76, 73, 83, 84] := by
  constructor
  · simp [parse_list, Chunk.from_bytes, slice, ChunkTag.from_bytes,
      ChunkTag.to_bytes, from_le_bytes, listBytes12]
  · decide

/-! ### Helper lemmas about `slice` -/

theorem slice_eq_some (l : List Nat) (a b : Nat) (h1 : a ≤ b)
    (h2 : b ≤ l.length) : slice l a b = some ((l.drop a).take (b - a)) := by
  unfold slice
  rw [if_pos ⟨h1, h2⟩]

theorem slice_eq_none (l : List Nat) (a b : Nat) (h : l.length < b) :
    slice l a b = none := by
  unfold slice
  rw [if_neg (by omega)]

/-! ### Concrete sessions used by the theorems -/

/-- A 16-bit session whose next two sample bytes are `[0x24, 0x17]`. -/
def wav16 : Wav :=
  { file := { contents := [36, 23], offset := 0 }, read := 44,
    data := ⟨ChunkTag.data, 44, 46⟩,
    fmt := { sample_rate := 44100, num_channels := 2, bit_depth := 16 },
    chunks := [] }

/-- A 24-bit session whose next three sample bytes are `[0x00, 0x00, 0x80]`. -/
def wav24 : Wav :=
  { file := { contents := [0, 0, 128], offset := 0 }, read := 44,
    data := ⟨ChunkTag.data, 44, 47⟩,
    fmt := { sample_rate := 44100, num_channels := 2, bit_depth := 24 },
    chunks := [] }

/-- A session that has consumed its whole data chunk `[28, 36)` while the
44-byte file carries 8 further bytes of trailing chunks after the data
chunk. -/
def wavTrailing : Wav :=
  { file := { contents := List.replicate 44 0, offset := 36 }, read := 44,
    data := ⟨ChunkTag.data, 28, 36⟩,
    fmt := { sample_rate := 44100, num_channels := 2, bit_depth := 16 },
    chunks := [] }

/-- A session whose data chunk `[44, 46)` extends to the very end of its
46-byte file, fully consumed. -/
def wavAtEnd : Wav :=
  { file := { contents := List.replicate 46 0, offset := 46 }, read := 46,
    data := ⟨ChunkTag.data, 44, 46⟩,
    fmt := { sample_rate := 44100, num_channels := 2, bit_depth := 16 },
    chunks := [] }

/-! ### Claim theorems for the streaming reader and format decoder -/

/-- **C4 counterexample.** A session that has read exactly its data
chunk's byte length (file offset minus data start equals data end minus
data start) but whose file carries trailing chunks after the data chunk:
`is_end` is still `false`, because the code compares the file offset with
the file's total length, not with the recorded data end. -/
theorem is_end_false_after_data_consumed :
    wavTrailing.file.offset - wavTrailing.data.start =
      wavTrailing.data.«end» - wavTrailing.data.start ∧
    wavTrailing.data.«end» < wavTrailing.file.length ∧
    wavTrailing.is_end = false := by
  decide

/-- **C4 (amended).** `is_end` is true exactly when the file's offset
equals the file's total length; therefore, for a session that has read `r`
sample bytes since open (file offset = data start + r), the predicate is
equivalent to `r` having reached the data chunk's byte length only under
the extra assumption that the data chunk extends to the end of the file
(no trailing chunks follow it). -/
theorem is_end_iff_data_read (w : Wav) (r : Nat)
    (hoff : w.file.offset = w.data.start + r)
    (hse : w.data.start ≤ w.data.«end»)
    (hend : w.data.«end» = w.file.length) :
    w.is_end = true ↔ r = w.data.«end» - w.data.start := by
  unfold Wav.is_end FileHandle.length at *
  simp only [beq_iff_eq]
  omega

/-- **C4 witness.** Applying the amended theorem at a concrete session
whose data chunk ends at the file's end. -/
theorem is_end_iff_data_read_witness : wavAtEnd.is_end = true := by
  exact (is_end_iff_data_read wavAtEnd 2 (by decide) (by decide)
    (by decide)).mpr (by decide)

/-- **C5.** Per-sample decode values: at bit depth 16 the bytes
`[0x24, 0x17]` decode to the signed value `0x1724 = 5924`; at bit depth 24
the bytes `[0x00, 0x00, 0x80]` have bit 7 of the third byte set, the
synthesized fourth byte is `0xFF`, and the four bytes
`[0x00, 0x00, 0x80, 0xFF]` decode as little-endian signed 32-bit to
`-8388608`, the signed reading of the bit pattern `0xFF800000`
(`0xFF800000 - 2^32 = -8388608`). -/
theorem next_decodes_samples :
    (wav16.next).1 = .ok (.BitDepth16 5924) ∧
    (wav24.next).1 = .ok (.BitDepth24 (-8388608)) ∧
    (4286578688 : Int) - 4294967296 = -8388608 := by
  decide

/-- **C8.** The claim says each `next` call advances the session's
recorded read-position by the number of bytes consumed (2 bytes at bit
depth 16).  The code consumes 2 bytes from the file (the offset advances
by 2) but executes `self.read += 1` unconditionally, so the recorded
counter advances by 1, not 2. -/
theorem next_advances_read_by_one :
    (wav16.next).2.file.offset = wav16.file.offset + 2 ∧
    (wav16.next).2.read = wav16.read + 1 ∧
    (wav16.next).2.read ≠ wav16.read + 2 := by
  decide

/-- **C10.** For every non-exhausted session at bit depth 16 or 24,
`next_n` returns `Err(UnsupportedBitDepth(depth))` with no samples, yet
still advances the session's `read` counter by `NUM * 2` resp. `NUM * 3`:
the error is not atomic with respect to session state. -/
theorem next_n_error_still_advances (w : Wav) (NUM : Nat)
    (hend : w.is_end = false) :
    (w.fmt.bit_depth = 16 →
      w.next_n NUM =
        (.err (.UnsupportedBitDepth 16),
          { w with read := w.read + NUM * 2 })) ∧
    (w.fmt.bit_depth = 24 →
      w.next_n NUM =
        (.err (.UnsupportedBitDepth 24),
          { w with read := w.read + NUM * 3 })) := by
  constructor
  · intro h16
    simp [Wav.next_n, hend, h16]
  · intro h24
    simp [Wav.next_n, hend, h24]

/-- **C10 witness.** Applying the theorem at a concrete 16-bit session
with `NUM = 5`. -/
theorem next_n_error_still_advances_witness :
    wav16.next_n 5 =
      (.err (.UnsupportedBitDepth 16),
        { wav16 with read := wav16.read + 5 * 2 }) := by
  exact (next_n_error_still_advances wav16 5 (by decide)).1 (by decide)

/-- A well-formed 16-byte PCM `fmt ` chunk content: tag 1, 2 channels,
sample rate 44100, byte rate 176400, block align 4, 16 bits per sample. -/
def fmtBytes16 : List Nat :=
  [1, 0, 2, 0, 68, 172, 0, 0, 16, 177, 2, 0, 4, 0, 16, 0]

/-- **C6.** On any `fmt ` chunk content of at least 16 bytes, the decoder
reads the format tag as u16 LE from bytes `[0,2)` and fails with
`UnsupportedFormat` carrying that tag whenever it is not 1; when the tag
is 1 it returns the `Fmt` whose channel count is the u16 LE at `[2,4)`,
whose sample rate is the u32 LE at `[4,8)` and whose bit depth is the
u16 LE at `[14,16)` — the result is a function of those byte ranges
alone. -/
theorem from_chunk_reads_fixed_fields (bytes : List Nat)
    (h : 16 ≤ bytes.length) :
    (from_le_bytes (bytes.take 2) ≠ 1 →
      Fmt.from_chunk bytes =
        .err (.UnsupportedFormat (from_le_bytes (bytes.take 2)))) ∧
    (from_le_bytes (bytes.take 2) = 1 →
      Fmt.from_chunk bytes =
        .ok { sample_rate := from_le_bytes ((bytes.drop 4).take 4),
              num_channels := from_le_bytes ((bytes.drop 2).take 2),
              bit_depth := from_le_bytes ((bytes.drop 14).take 2) }) := by
  have h02 := slice_eq_some bytes 0 2 (by omega) (by omega)
  have h24 := slice_eq_some bytes 2 4 (by omega) (by omega)
  have h48 := slice_eq_some bytes 4 8 (by omega) (by omega)
  have h1416 := slice_eq_some bytes 14 16 (by omega) (by omega)
  constructor
  · intro hne
    simp only [List.drop_zero] at h02
    simp [Fmt.from_chunk, h02, h24, h48, h1416, hne]
  · intro heq
    simp only [List.drop_zero] at h02
    simp [Fmt.from_chunk, h02, h24, h48, h1416, heq]

/-- **C6 witness.** Applying the theorem to a concrete 16-byte PCM
`fmt ` content. -/
theorem from_chunk_reads_fixed_fields_witness :
    Fmt.from_chunk fmtBytes16 =
      .ok { sample_rate := 44100, num_channels := 2, bit_depth := 16 } := by
  have h := (from_chunk_reads_fixed_fields fmtBytes16 (by decide)).2
    (by decide)
  rw [h]
  decide

/-- **C9 counterexample.** `Chunk::from_bytes` is not total over
arbitrary slices: on the 3-byte slice `[0, 0, 0]` the range indexing
`bytes[0..4]` is out of bounds and the function panics instead of
returning a descriptor or the byte-conversion error. -/
theorem from_bytes_short_slice_panics :
    Chunk.from_bytes [0, 0, 0] = .panicked := by
  decide

/-- **C9 (amended).** `Chunk::from_bytes` is total only on slices of at
least 8 bytes, where it always succeeds — the defensive
`CantParseSliceInto` error is unreachable, because `try_into` runs only
after the range indexing has already verified the length; on any slice
shorter than 8 bytes the function panics on out-of-range slice
indexing. -/
theorem from_bytes_total_iff_long_enough (bytes : List Nat) :
    (8 ≤ bytes.length →
      Chunk.from_bytes bytes =
        .ok { id := ChunkTag.from_bytes (bytes.take 4), start := 20,
              «end» := 20 + from_le_bytes ((bytes.drop 4).take 4) }) ∧
    (bytes.length < 8 → Chunk.from_bytes bytes = .panicked) := by
  constructor
  · intro h
    have h04 := slice_eq_some bytes 0 4 (by omega) (by omega)
    have h48 := slice_eq_some bytes 4 8 (by omega) (by omega)
    simp only [List.drop_zero] at h04
    simp [Chunk.from_bytes, h04, h48]
  · intro h
    by_cases h4 : bytes.length < 4
    · have h04 := slice_eq_none bytes 0 4 (by omega)
      simp [Chunk.from_bytes, h04]
    · have h04 := slice_eq_some bytes 0 4 (by omega) (by omega)
      have h48 := slice_eq_none bytes 4 8 (by omega)
      simp only [List.drop_zero] at h04
      simp [Chunk.from_bytes, h04, h48]

/-- **C9 witness.** Applying the amended theorem to a concrete 8-byte
header slice. -/
theorem from_bytes_total_iff_long_enough_witness :
    Chunk.from_bytes [82, 73, 70, 70, 4, 0, 0, 0] =
      .ok ⟨ChunkTag.riff, 20, 24⟩ := by
  have h := (from_bytes_total_iff_long_enough
    [82, 73, 70, 70, 4, 0, 0, 0]).1 (by decide)
  rw [h]
  decide

end AudioParser
